import Mathlib

/-!
# NativeSyncFlag (thingengine-native.cpp)

A shallow embedding of the three JNI entry points of
`platform/android/app/src/main/jni/thingengine-native.cpp`:

* `Java_edu_stanford_thingengine_engine_NativeSyncFlag_init`
* `Java_edu_stanford_thingengine_engine_NativeSyncFlag_signalFD`
* `Java_edu_stanford_thingengine_engine_NativeSyncFlag_closeFD`

The C++ code is three thin wrappers around `eventfd(2)`, `write(2)` and
`close(2)`.  What they call is not part of the repository, so the file first
fixes an executable model of that environment: the descriptor table of the
process, holding event objects with their Linux semantics (eventfd(2),
write(2), read(2), close(2), poll(2), execve(2)) next to the other files the
process has open, a write that can block and be woken or interrupted, the
per-thread `errno`, and the part of JNI the code uses (a pending exception
per thread, one `int` field of the Java object).  The entry points
themselves are transcribed statement by statement on top of it.
-/

namespace ThingEngine

/-! ## Constants of `<sys/eventfd.h>` and `<errno.h>` -/

/-- The flag `EFD_SEMAPHORE` (value 1). -/
def EFD_SEMAPHORE : Nat := 1
/-- The flag `EFD_NONBLOCK`, equal to `O_NONBLOCK` (octal 4000). -/
def EFD_NONBLOCK : Nat := 2048
/-- The flag `EFD_CLOEXEC`, equal to `O_CLOEXEC` (octal 2000000). -/
def EFD_CLOEXEC : Nat := 524288

def EINTR : Int := 4
def EBADF : Int := 9
def EAGAIN : Int := 11
def ENOMEM : Int := 12
def EINVAL : Int := 22
def EMFILE : Int := 24

/-- The largest value an event counter can hold, `0xfffffffffffffffe`. -/
def maxCounter : Nat := 2 ^ 64 - 2

/-- The error-to-string mapping `strerror(3)` of the Android C library, on the
error numbers the modelled calls can set; any other number gives the
library's "Unknown error" text. -/
def strerror (e : Int) : String :=
  if e = EINTR then "Interrupted system call"
  else if e = EBADF then "Bad file descriptor"
  else if e = EAGAIN then "Try again"
  else if e = ENOMEM then "Out of memory"
  else if e = EINVAL then "Invalid argument"
  else if e = EMFILE then "Too many open files"
  else "Unknown error " ++ toString e

/-! ## The kernel: the descriptors of one process -/

/-- The kernel object behind an event descriptor: the 64-bit counter, the
close-on-exec bit of the descriptor and the two status flags of the file. -/
structure EventFd where
  counter : Nat
  cloexec : Bool
  nonblock : Bool
  semaphore : Bool
deriving DecidableEq, Repr

/-- What a file that is not an event object answers to a transfer: `n` bytes
moved, a failure with an error number, or the caller is suspended. -/
inductive Resp where
  | done (n : Nat)
  | fail (errno : Int)
  | block
deriving DecidableEq, Repr

/-- Any other file the process has open (a regular file, a pipe, a socket):
only its close-on-exec bit and its answers to a write and to a read are
tracked. -/
structure OtherFile where
  cloexec : Bool
  onWrite : Resp
  onRead : Resp
deriving DecidableEq, Repr

/-- What a descriptor can refer to. -/
inductive File where
  | event (e : EventFd)
  | other (f : OtherFile)
deriving DecidableEq, Repr

/-- The close-on-exec bit of the descriptor. -/
def File.cloexec : File → Bool
  | File.event e => e.cloexec
  | File.other f => f.cloexec

/-- One system call as issued by a thread, with its arguments. -/
inductive Syscall where
  | eventfd (initval flags : Nat)
  | write (fd : Int) (buf : List Nat)
  | read (fd : Int) (count : Nat)
  | close (fd : Int)
deriving DecidableEq, Repr

/-- Process-wide kernel state.  `fds n` is the file descriptor `n` refers to
(`none`: descriptor `n` is not open), `nofile` is the descriptor
limit of the process (`RLIMIT_NOFILE`), `nomem` says that the kernel cannot
allocate memory for a new object, and `calls` records every system call issued
so far, oldest first. -/
structure Kernel where
  fds : Nat → Option File
  nofile : Nat
  nomem : Bool
  calls : List Syscall

/-- A Java exception object: its class and its message. -/
structure Throwable where
  cls : String
  msg : String
deriving DecidableEq, Repr

/-- Per-thread state: the C `errno` and the pending Java exception (JNI
`ThrowNew` only records it, the native code keeps running). -/
structure Thread where
  errno : Int
  pending : Option Throwable
deriving DecidableEq, Repr

/-- The file a descriptor number refers to; negative numbers refer to
nothing. -/
def Kernel.lookup (k : Kernel) (fd : Int) : Option File :=
  if fd < 0 then none else k.fds fd.toNat

/-- The descriptor table with entry `n` replaced by `v`. -/
def setFd (fds : Nat → Option File) (n : Nat) (v : Option File) : Nat → Option File :=
  fun i => if i = n then v else fds i

/-- The lowest descriptor number in `[i, i + fuel)` that is not open. -/
def lowestFree (fds : Nat → Option File) : Nat → Nat → Option Nat
  | 0, _ => none
  | fuel + 1, i => if (fds i).isNone then some i else lowestFree fds fuel (i + 1)

/-- The kernel state after one more recorded call. -/
def logCall (k : Kernel) (c : Syscall) : Kernel := { k with calls := k.calls ++ [c] }

/-- Outcome of a library call that may suspend the calling thread: either it
returns `r` (with `errno` set on failure) or the thread is blocked inside the
call, to go on as `wake` says. -/
inductive Call where
  | ret (r : Int) (k : Kernel) (t : Thread)
  | block (k : Kernel) (t : Thread)

/-- The call `eventfd(initval, flags)`: unknown flag bits give `EINVAL`, no
kernel memory `ENOMEM`, no free descriptor below the limit `EMFILE`; otherwise
the lowest free descriptor is bound to a new counter holding `initval`. -/
def eventfd (k : Kernel) (t : Thread) (initval flags : Nat) : Int × Kernel × Thread :=
  let k1 : Kernel := { k with calls := k.calls ++ [Syscall.eventfd initval flags] }
  if flags &&& (EFD_CLOEXEC ||| EFD_NONBLOCK ||| EFD_SEMAPHORE) ≠ flags then
    (-1, k1, { t with errno := EINVAL })
  else if k.nomem then
    (-1, k1, { t with errno := ENOMEM })
  else
    match lowestFree k.fds k.nofile 0 with
    | none => (-1, k1, { t with errno := EMFILE })
    | some n =>
      let e : EventFd :=
        { counter := initval
          cloexec := flags &&& EFD_CLOEXEC ≠ 0
          nonblock := flags &&& EFD_NONBLOCK ≠ 0
          semaphore := flags &&& EFD_SEMAPHORE ≠ 0 }
      ((n : Int), { k1 with fds := setFd k.fds n (some (File.event e)) }, t)

/-- The eight bytes of a `uint64_t` in memory (little endian, as on every
Android ABI). -/
def bytesOfU64 (v : Nat) : List Nat :=
  (List.range 8).map (fun i => v / 256 ^ i % 256)

/-- The `uint64_t` the first eight bytes of a buffer hold. -/
def u64OfBytes (buf : List Nat) : Nat :=
  ((buf.take 8).foldr (fun b acc => b % 256 + 256 * acc) 0)

/-- The kernel side of `write(fd, buf, buf.length)`, run when the call is
entered and again each time a caller blocked in it is woken.  A closed
descriptor gives `EBADF`.  On an event object fewer than eight bytes or the
value `0xffffffffffffffff` give `EINVAL`; when the addition would take the
counter past `maxCounter` the call fails with `EAGAIN` on a non-blocking
descriptor and otherwise blocks; else the value is added and 8 returned.  Any
other file answers as its `onWrite` says. -/
def attemptWrite (k : Kernel) (t : Thread) (fd : Int) (buf : List Nat) : Call :=
  match k.lookup fd with
  | none => Call.ret (-1) k { t with errno := EBADF }
  | some (File.other f) =>
    match f.onWrite with
    | Resp.done n => Call.ret (min n buf.length : Nat) k t
    | Resp.fail e => Call.ret (-1) k { t with errno := e }
    | Resp.block => Call.block k t
  | some (File.event e) =>
    if buf.length < 8 then Call.ret (-1) k { t with errno := EINVAL }
    else
      let v := u64OfBytes buf
      if v = 2 ^ 64 - 1 then Call.ret (-1) k { t with errno := EINVAL }
      else if e.counter + v ≤ maxCounter then
        Call.ret 8
          { k with fds := setFd k.fds fd.toNat
                            (some (File.event { e with counter := e.counter + v })) } t
      else if e.nonblock then Call.ret (-1) k { t with errno := EAGAIN }
      else Call.block k t

/-- The call `write(fd, buf, buf.length)`: the call is recorded and the
transfer attempted. -/
def write (k : Kernel) (t : Thread) (fd : Int) (buf : List Nat) : Call :=
  attemptWrite (logCall k (Syscall.write fd buf)) t fd buf

/-- How a caller blocked in `write(fd, buf, buf.length)` goes on when it is
woken in kernel state `k`.  Woken by a signal whose handler does not restart
the call (`intr`), the call returns -1 with `EINTR`.  Otherwise the transfer
is attempted again, which completes it or puts the caller back to sleep; if
the descriptor was closed meanwhile nothing can make room under this number
and the caller keeps waiting.  A file is named by its descriptor number
here, so this is the kernel's behaviour as long as the number still refers
to the file the call blocked on. -/
def wake (k : Kernel) (t : Thread) (fd : Int) (buf : List Nat) (intr : Bool) : Call :=
  if intr then Call.ret (-1) k { t with errno := EINTR }
  else
    match k.lookup fd with
    | none => Call.block k t
    | some _ => attemptWrite k t fd buf

/-- The call `close(fd)`: a closed descriptor gives `EBADF`, an open one is
released and 0 returned. -/
def close (k : Kernel) (t : Thread) (fd : Int) : Int × Kernel × Thread :=
  let k1 : Kernel := { k with calls := k.calls ++ [Syscall.close fd] }
  match k.lookup fd with
  | none => (-1, k1, { t with errno := EBADF })
  | some _ => (0, { k1 with fds := setFd k.fds fd.toNat none }, t)

/-- Outcome of a `read`: the return value and the bytes delivered, or the
thread stays blocked. -/
inductive ReadCall where
  | ret (r : Int) (buf : List Nat) (k : Kernel) (t : Thread)
  | block (k : Kernel) (t : Thread)

/-- The call `read(fd, buf, count)`, which is what a consumer does once the
descriptor polls readable.  On an event object with a zero counter it fails
with `EAGAIN` (non-blocking) or blocks; a semaphore descriptor delivers 1 and
decrements; any other delivers the counter and resets it to zero.  Any other
file answers as its `onRead` says (its content is not tracked, the bytes
delivered are shown as zeros). -/
def read (k : Kernel) (t : Thread) (fd : Int) (count : Nat) : ReadCall :=
  let k1 : Kernel := { k with calls := k.calls ++ [Syscall.read fd count] }
  match k.lookup fd with
  | none => ReadCall.ret (-1) [] k1 { t with errno := EBADF }
  | some (File.other f) =>
    match f.onRead with
    | Resp.done n => ReadCall.ret (min n count : Nat) (List.replicate (min n count) 0) k1 t
    | Resp.fail e => ReadCall.ret (-1) [] k1 { t with errno := e }
    | Resp.block => ReadCall.block k1 t
  | some (File.event e) =>
    if count < 8 then ReadCall.ret (-1) [] k1 { t with errno := EINVAL }
    else if e.counter = 0 then
      if e.nonblock then ReadCall.ret (-1) [] k1 { t with errno := EAGAIN }
      else ReadCall.block k1 t
    else if e.semaphore then
      ReadCall.ret 8 (bytesOfU64 1)
        { k1 with fds := setFd k.fds fd.toNat
                           (some (File.event { e with counter := e.counter - 1 })) } t
    else
      ReadCall.ret 8 (bytesOfU64 e.counter)
        { k1 with fds := setFd k.fds fd.toNat (some (File.event { e with counter := 0 })) } t

/-- Readiness for reading as `poll(2)` reports it (`POLLIN`): an open event
descriptor is readable when its counter is not zero, any other open file when
a read would not block. -/
def readable (k : Kernel) (fd : Int) : Bool :=
  match k.lookup fd with
  | none => false
  | some (File.event e) => decide (0 < e.counter)
  | some (File.other f) => decide (f.onRead ≠ Resp.block)

/-- Process replacement (`execve(2)`): every close-on-exec descriptor is
closed, the others survive. -/
def execve (k : Kernel) : Kernel :=
  { k with fds := fun i =>
      match k.fds i with
      | none => none
      | some f => if f.cloexec then none else some f }

/-! ## The part of JNI the code uses -/

/-- Modelled from the spec: the Java class `NativeSyncFlag` is not among the
sources; the native code reaches one field of it, the `int` field `fd`
holding the raw descriptor of the flag. -/
structure NativeSyncFlag where
  fd : Int
deriving DecidableEq, Repr

/-- JNI `FindClass`: a class reference, represented by the class name
(`java/io/IOException` is a class of the Java platform, the lookup succeeds). -/
def FindClass (name : String) : String := name

/-- JNI `ThrowNew`: records a new exception of class `cls` with message `msg`
as pending on the thread. -/
def ThrowNew (t : Thread) (cls : String) (msg : String) : Thread :=
  { t with pending := some { cls := cls, msg := msg } }

/-- JNI `GetObjectClass`: the class of the object, represented by its name. -/
def GetObjectClass (_self : NativeSyncFlag) : String :=
  "edu/stanford/thingengine/engine/NativeSyncFlag"

/-- JNI `GetFieldID`: a field reference, represented by the field name. -/
def GetFieldID (_cls : String) (name : String) (_sig : String) : String := name

/-- JNI `SetIntField` on a `NativeSyncFlag` object. -/
def SetIntField (self : NativeSyncFlag) (field : String) (v : Int) : NativeSyncFlag :=
  if field = "fd" then { self with fd := v } else self

/-! ## The three entry points -/

/-- Outcome of a `void` native method: it returned, or the thread is still
blocked inside it. -/
inductive Outcome where
  | returned (k : Kernel) (t : Thread)
  | blocked (k : Kernel) (t : Thread)

/-- The native method `NativeSyncFlag.init()`.  `k` is the kernel state, `t`
the state of the calling thread (what `env` and `errno` stand for), `self`
the Java object.  After `ThrowNew` the function returns at once. -/
def Java_edu_stanford_thingengine_engine_NativeSyncFlag_init
    (k : Kernel) (t : Thread) (self : NativeSyncFlag) : Kernel × Thread × NativeSyncFlag :=
  match eventfd k t 0 EFD_CLOEXEC with
  | (fd, k1, t1) =>
    if fd < 0 then
      let saved_errno := t1.errno
      let ioexeception := FindClass "java/io/IOException"
      (k1, ThrowNew t1 ioexeception (strerror saved_errno), self)
    else
      let nativesyncflag := GetObjectClass self
      let field := GetFieldID nativesyncflag "fd" "I"
      (k1, t1, SetIntField self field fd)

/-- The static native method `NativeSyncFlag.signalFD(int fd)`: one `write`
of the eight bytes of `value`, and an exception when it returns a negative
value. -/
def Java_edu_stanford_thingengine_engine_NativeSyncFlag_signalFD
    (k : Kernel) (t : Thread) (fd : Int) : Outcome :=
  let value : Nat := 1
  match write k t fd (bytesOfU64 value) with
  | Call.block k1 t1 => Outcome.blocked k1 t1
  | Call.ret ok k1 t1 =>
    if ok < 0 then
      let saved_errno := t1.errno
      let ioexeception := FindClass "java/io/IOException"
      Outcome.returned k1 (ThrowNew t1 ioexeception (strerror saved_errno))
    else
      Outcome.returned k1 t1

/-- The static native method `NativeSyncFlag.closeFD(int fd)`: one `close`,
and an exception when it returns a negative value. -/
def Java_edu_stanford_thingengine_engine_NativeSyncFlag_closeFD
    (k : Kernel) (t : Thread) (fd : Int) : Kernel × Thread :=
  match close k t fd with
  | (ok, k1, t1) =>
    if ok < 0 then
      let saved_errno := t1.errno
      let ioexeception := FindClass "java/io/IOException"
      (k1, ThrowNew t1 ioexeception (strerror saved_errno))
    else
      (k1, t1)

/-! ## Auxiliary definitions: outcomes and sequences of calls -/

/-- The thread state after a failed call that set `errno` to `e` and the
`IOException` thrown for it. -/
def thrown (e : Int) : Thread :=
  { errno := e, pending := some { cls := "java/io/IOException", msg := strerror e } }

def Outcome.kernel : Outcome → Kernel
  | Outcome.returned k _ => k
  | Outcome.blocked k _ => k

def Outcome.thread : Outcome → Thread
  | Outcome.returned _ t => t
  | Outcome.blocked _ t => t

def Outcome.isBlocked : Outcome → Bool
  | Outcome.returned _ _ => false
  | Outcome.blocked _ _ => true

/-- The event object `init` asks for: counter 0, close-on-exec, blocking, not
a semaphore. -/
def freshFlag : EventFd := { counter := 0, cloexec := true, nonblock := false, semaphore := false }

/-- The rest of `signalFD` (lines 32 to 36) for a caller that blocked in its
write and is woken in kernel state `k`: the test of the value the write
returns, and the exception when it is negative. -/
def signalFD_resume (k : Kernel) (t : Thread) (fd : Int) (intr : Bool) : Outcome :=
  let value : Nat := 1
  match wake k t fd (bytesOfU64 value) intr with
  | Call.block k1 t1 => Outcome.blocked k1 t1
  | Call.ret ok k1 t1 =>
    if ok < 0 then
      let saved_errno := t1.errno
      let ioexeception := FindClass "java/io/IOException"
      Outcome.returned k1 (ThrowNew t1 ioexeception (strerror saved_errno))
    else
      Outcome.returned k1 t1

def Call.thread : Call → Thread
  | Call.ret _ _ t => t
  | Call.block _ t => t

def Call.kernel : Call → Kernel
  | Call.ret _ k _ => k
  | Call.block k _ => k

/-- Lines 32 to 36 of `signalFD` as a function of what the write did. -/
def afterWrite : Call → Outcome
  | Call.block k1 t1 => Outcome.blocked k1 t1
  | Call.ret ok k1 t1 =>
    if ok < 0 then
      Outcome.returned k1 (ThrowNew t1 (FindClass "java/io/IOException") (strerror t1.errno))
    else
      Outcome.returned k1 t1

def ReadCall.kernel : ReadCall → Kernel
  | ReadCall.ret _ _ k _ => k
  | ReadCall.block k _ => k

/-- One `signalFD(d)` per entry of the schedule, called by the thread the
entry names, in schedule order; `ts` maps a thread to its state.  A call is
one step: its write is one atomic kernel operation and the rest of the call
touches the state of the calling thread only.  The result is `none` when one
of the calls blocks. -/
def runSignals (d : Int) : List Nat → Kernel → (Nat → Thread) → Option (Kernel × (Nat → Thread))
  | [], k, ts => some (k, ts)
  | i :: rest, k, ts =>
    match Java_edu_stanford_thingengine_engine_NativeSyncFlag_signalFD k (ts i) d with
    | Outcome.returned k1 t1 => runSignals d rest k1 (fun j => if j = i then t1 else ts j)
    | Outcome.blocked _ _ => none

/-! ## Concrete states used in the examples -/

/-- A process with no descriptor open and room for four. -/
def k0 : Kernel := { fds := fun _ => none, nofile := 4, nomem := false, calls := [] }

/-- A thread with nothing pending. -/
def t0 : Thread := { errno := 0, pending := none }

/-- A flag object that was never initialised (Java zeroes the field). -/
def flag0 : NativeSyncFlag := { fd := 0 }

/-- A process whose descriptor limit is exhausted: both slots hold a flag. -/
def kFull : Kernel :=
  { fds := fun i => if i < 2 then some (File.event freshFlag) else none,
    nofile := 2, nomem := false, calls := [] }

/-- A flag object holding descriptor 1. -/
def flag1 : NativeSyncFlag := { fd := 1 }

/-- A process whose descriptor 0 is a flag with counter 41. -/
def k41 : Kernel :=
  { fds := fun i => if i = 0 then some (File.event { freshFlag with counter := 41 }) else none,
    nofile := 4, nomem := false, calls := [] }

/-- A process whose descriptor 0 is a flag as `init` makes it (blocking,
close-on-exec) with the counter at its maximum. -/
def kMax : Kernel :=
  { fds := fun i =>
      if i = 0 then some (File.event { freshFlag with counter := maxCounter }) else none,
    nofile := 4, nomem := false, calls := [] }

/-- A process in which descriptor 0 is the open flag of the object `flag0`. -/
def kOpen : Kernel := (Java_edu_stanford_thingengine_engine_NativeSyncFlag_init k0 t0 flag0).1

theorem lowestFree_spec (fds : Nat → Option File) :
    ∀ (fuel i n : Nat), lowestFree fds fuel i = some n → fds n = none ∧ i ≤ n ∧ n < i + fuel := by
  intro fuel
  induction fuel with
  | zero => intro i n h; simp [lowestFree] at h
  | succ f ih =>
    intro i n h
    unfold lowestFree at h
    by_cases hi : (fds i).isNone = true
    · rw [if_pos hi] at h
      have hn : i = n := by simpa using h
      subst hn
      refine ⟨?_, le_refl _, by omega⟩
      simpa using hi
    · rw [if_neg hi] at h
      obtain ⟨h1, h2, h3⟩ := ih (i + 1) n h
      exact ⟨h1, by omega, by omega⟩

theorem lookup_ofNat (k : Kernel) (n : Nat) : k.lookup (n : Int) = k.fds n := by
  simp [Kernel.lookup]

/-- The two ways `eventfd(0, EFD_CLOEXEC)` can end. -/
theorem eventfd_cloexec_cases (k : Kernel) (t : Thread) :
    (∃ n : Nat, lowestFree k.fds k.nofile 0 = some n ∧
      eventfd k t 0 EFD_CLOEXEC =
        ((n : Int),
         { k with calls := k.calls ++ [Syscall.eventfd 0 EFD_CLOEXEC],
                  fds := setFd k.fds n (some (File.event freshFlag)) }, t)) ∨
    (∃ e : Int, (e = ENOMEM ∨ e = EMFILE) ∧
      eventfd k t 0 EFD_CLOEXEC =
        (-1, { k with calls := k.calls ++ [Syscall.eventfd 0 EFD_CLOEXEC] },
         { t with errno := e })) := by
  have hflags : ¬ (EFD_CLOEXEC &&& (EFD_CLOEXEC ||| EFD_NONBLOCK ||| EFD_SEMAPHORE) ≠ EFD_CLOEXEC) := by
    decide
  unfold eventfd
  simp only [if_neg hflags]
  by_cases hm : k.nomem = true
  · right
    exact ⟨ENOMEM, Or.inl rfl, by simp [hm]⟩
  · cases hl : lowestFree k.fds k.nofile 0 with
    | none =>
      right
      exact ⟨EMFILE, Or.inr rfl, by simp [hm]⟩
    | some n =>
      left
      refine ⟨n, rfl, ?_⟩
      simp only [if_neg hm]
      rfl

/-- The two ways `init` can end: the lowest free descriptor is stored in the
object, or the exception is thrown and the object is left alone. -/
theorem init_cases (k : Kernel) (t : Thread) (self : NativeSyncFlag) :
    (∃ n : Nat, lowestFree k.fds k.nofile 0 = some n ∧
      eventfd k t 0 EFD_CLOEXEC =
        ((n : Int),
         { k with calls := k.calls ++ [Syscall.eventfd 0 EFD_CLOEXEC],
                  fds := setFd k.fds n (some (File.event freshFlag)) }, t) ∧
      Java_edu_stanford_thingengine_engine_NativeSyncFlag_init k t self =
        ({ k with calls := k.calls ++ [Syscall.eventfd 0 EFD_CLOEXEC],
                  fds := setFd k.fds n (some (File.event freshFlag)) }, t,
         { fd := (n : Int) })) ∨
    (∃ e : Int, (e = ENOMEM ∨ e = EMFILE) ∧
      eventfd k t 0 EFD_CLOEXEC =
        (-1, { k with calls := k.calls ++ [Syscall.eventfd 0 EFD_CLOEXEC] },
         { t with errno := e }) ∧
      Java_edu_stanford_thingengine_engine_NativeSyncFlag_init k t self =
        ({ k with calls := k.calls ++ [Syscall.eventfd 0 EFD_CLOEXEC] },
         { errno := e, pending := some { cls := "java/io/IOException", msg := strerror e } },
         self)) := by
  rcases eventfd_cloexec_cases k t with ⟨n, hl, he⟩ | ⟨e, hE, he⟩
  · left
    refine ⟨n, hl, he, ?_⟩
    unfold Java_edu_stanford_thingengine_engine_NativeSyncFlag_init
    rw [he]
    have hn : ¬ ((n : Int) < 0) := by omega
    simp only [if_neg hn]
    rfl
  · right
    refine ⟨e, hE, he, ?_⟩
    unfold Java_edu_stanford_thingengine_engine_NativeSyncFlag_init
    rw [he]
    have hn : ((-1 : Int) < 0) := by omega
    simp only [if_pos hn]
    rfl

/-! ## Claims about `init` -/

/-- C1: whenever the allocation `eventfd(0, EFD_CLOEXEC)` returns a descriptor
`fd >= 0`, `init` throws nothing (the pending exception of the thread is what
it was), the field `fd` of the object holds exactly the value the call
returned, and that descriptor is open in the kernel state `init` leaves. -/
theorem init_success_stores_open_descriptor (k : Kernel) (t : Thread) (self : NativeSyncFlag)
    (hok : 0 ≤ (eventfd k t 0 EFD_CLOEXEC).1) :
    (Java_edu_stanford_thingengine_engine_NativeSyncFlag_init k t self).2.1.pending = t.pending ∧
    (Java_edu_stanford_thingengine_engine_NativeSyncFlag_init k t self).2.2.fd
      = (eventfd k t 0 EFD_CLOEXEC).1 ∧
    ((Java_edu_stanford_thingengine_engine_NativeSyncFlag_init k t self).1.lookup
      (Java_edu_stanford_thingengine_engine_NativeSyncFlag_init k t self).2.2.fd).isSome = true := by
  rcases init_cases k t self with ⟨n, _, he, hi⟩ | ⟨e, _, he, _⟩
  · rw [hi, he]
    refine ⟨rfl, rfl, ?_⟩
    simp [lookup_ofNat, setFd]
  · rw [he] at hok
    simp at hok

theorem init_success_stores_open_descriptor_witness :
    0 ≤ (eventfd k0 t0 0 EFD_CLOEXEC).1 ∧
    (Java_edu_stanford_thingengine_engine_NativeSyncFlag_init k0 t0 flag0).2.2.fd = 0 ∧
    ((Java_edu_stanford_thingengine_engine_NativeSyncFlag_init k0 t0 flag0).1.lookup 0).isSome
      = true :=
  ⟨by decide, by decide,
   (init_success_stores_open_descriptor k0 t0 flag0 (by decide)).2.2⟩

/-- C2: whenever the allocation `eventfd(0, EFD_CLOEXEC)` returns a negative
value, `init` leaves pending a `java/io/IOException` whose message is
`strerror` of the `errno` that call set, the object (its field `fd`) is
exactly as before, and the descriptor table of the process is unchanged. -/
theorem init_failure_throws_and_keeps_state (k : Kernel) (t : Thread) (self : NativeSyncFlag)
    (hfail : (eventfd k t 0 EFD_CLOEXEC).1 < 0) :
    (Java_edu_stanford_thingengine_engine_NativeSyncFlag_init k t self).2.1.pending
      = some { cls := "java/io/IOException",
               msg := strerror (eventfd k t 0 EFD_CLOEXEC).2.2.errno } ∧
    (Java_edu_stanford_thingengine_engine_NativeSyncFlag_init k t self).2.2 = self ∧
    (Java_edu_stanford_thingengine_engine_NativeSyncFlag_init k t self).1.fds = k.fds := by
  rcases init_cases k t self with ⟨n, _, he, _⟩ | ⟨e, _, he, hi⟩
  · rw [he] at hfail
    simp at hfail
    omega
  · rw [hi, he]
    exact ⟨rfl, rfl, rfl⟩

theorem init_failure_throws_and_keeps_state_witness :
    (eventfd kFull t0 0 EFD_CLOEXEC).1 < 0 ∧
    (Java_edu_stanford_thingengine_engine_NativeSyncFlag_init kFull t0 flag1).2.1.pending
      = some { cls := "java/io/IOException", msg := "Too many open files" } ∧
    (Java_edu_stanford_thingengine_engine_NativeSyncFlag_init kFull t0 flag1).2.2 = flag1 :=
  ⟨by decide, by decide,
   (init_failure_throws_and_keeps_state kFull t0 flag1 (by decide)).2.1⟩

/-- C3: every call of `init` issues exactly one system call, the request
`eventfd(0, EFD_CLOEXEC)`: initial counter 0, flag word equal to the
close-on-exec bit with neither `EFD_NONBLOCK` nor `EFD_SEMAPHORE` in it.  When
the request succeeds the descriptor stored in the object refers to a counter
at 0 with close-on-exec set and no other flag, and it does not survive
process replacement. -/
theorem init_requests_one_cloexec_eventfd (k : Kernel) (t : Thread) (self : NativeSyncFlag) :
    (Java_edu_stanford_thingengine_engine_NativeSyncFlag_init k t self).1.calls
      = k.calls ++ [Syscall.eventfd 0 EFD_CLOEXEC] ∧
    EFD_CLOEXEC &&& EFD_NONBLOCK = 0 ∧ EFD_CLOEXEC &&& EFD_SEMAPHORE = 0 ∧
    (0 ≤ (eventfd k t 0 EFD_CLOEXEC).1 →
      (Java_edu_stanford_thingengine_engine_NativeSyncFlag_init k t self).1.lookup
          (Java_edu_stanford_thingengine_engine_NativeSyncFlag_init k t self).2.2.fd
        = some (File.event
            { counter := 0, cloexec := true, nonblock := false, semaphore := false }) ∧
      (execve (Java_edu_stanford_thingengine_engine_NativeSyncFlag_init k t self).1).lookup
          (Java_edu_stanford_thingengine_engine_NativeSyncFlag_init k t self).2.2.fd
        = none) := by
  refine ⟨?_, by decide, by decide, ?_⟩
  · rcases init_cases k t self with ⟨n, _, _, hi⟩ | ⟨e, _, _, hi⟩ <;> rw [hi]
  · intro hok
    rcases init_cases k t self with ⟨n, _, he, hi⟩ | ⟨e, _, he, _⟩
    · rw [hi]
      constructor
      · simp [lookup_ofNat, setFd, freshFlag]
      · simp [lookup_ofNat, execve, setFd, freshFlag, File.cloexec]
    · rw [he] at hok
      simp at hok

theorem init_requests_one_cloexec_eventfd_witness :
    (Java_edu_stanford_thingengine_engine_NativeSyncFlag_init k0 t0 flag0).1.calls
      = [Syscall.eventfd 0 524288] ∧
    (execve (Java_edu_stanford_thingengine_engine_NativeSyncFlag_init k0 t0 flag0).1).lookup
        (Java_edu_stanford_thingengine_engine_NativeSyncFlag_init k0 t0 flag0).2.2.fd
      = none :=
  ⟨(init_requests_one_cloexec_eventfd k0 t0 flag0).1,
   ((init_requests_one_cloexec_eventfd k0 t0 flag0).2.2.2 (by decide)).2⟩

/-! ## Facts about `signalFD` and `closeFD` -/

theorem bytes_one : bytesOfU64 1 = [1, 0, 0, 0, 0, 0, 0, 0] := by decide

theorem signalFD_eq (k : Kernel) (t : Thread) (fd : Int) :
    Java_edu_stanford_thingengine_engine_NativeSyncFlag_signalFD k t fd
      = afterWrite (attemptWrite (logCall k (Syscall.write fd (bytesOfU64 1))) t fd
          (bytesOfU64 1)) := by
  unfold Java_edu_stanford_thingengine_engine_NativeSyncFlag_signalFD write
  dsimp only
  generalize attemptWrite (logCall k (Syscall.write fd (bytesOfU64 1))) t fd (bytesOfU64 1) = c
  cases c <;> rfl

theorem signalFD_resume_eq (k : Kernel) (t : Thread) (fd : Int) (intr : Bool) :
    signalFD_resume k t fd intr = afterWrite (wake k t fd (bytesOfU64 1) intr) := by
  unfold signalFD_resume
  dsimp only
  generalize wake k t fd (bytesOfU64 1) intr = c
  cases c <;> rfl

/-- What an attempt to write the value 1 to `fd`, followed by lines 32 to 36,
does, case by case. -/
theorem attempt_cases (k : Kernel) (t : Thread) (fd : Int) :
    (k.lookup fd = none ∧
      afterWrite (attemptWrite k t fd (bytesOfU64 1)) = Outcome.returned k (thrown EBADF)) ∨
    (∃ e, k.lookup fd = some (File.event e) ∧ e.counter + 1 ≤ maxCounter ∧
      afterWrite (attemptWrite k t fd (bytesOfU64 1))
        = Outcome.returned
            { k with fds := setFd k.fds fd.toNat
                              (some (File.event { e with counter := e.counter + 1 })) } t) ∨
    (∃ e, k.lookup fd = some (File.event e) ∧ maxCounter < e.counter + 1 ∧ e.nonblock = true ∧
      afterWrite (attemptWrite k t fd (bytesOfU64 1)) = Outcome.returned k (thrown EAGAIN)) ∨
    (∃ e, k.lookup fd = some (File.event e) ∧ maxCounter < e.counter + 1 ∧ e.nonblock = false ∧
      afterWrite (attemptWrite k t fd (bytesOfU64 1)) = Outcome.blocked k t) ∨
    (∃ f, k.lookup fd = some (File.other f) ∧
      (afterWrite (attemptWrite k t fd (bytesOfU64 1))).kernel = k) := by
  have hlen : ¬ ((bytesOfU64 1).length < 8) := by decide
  have hval : u64OfBytes (bytesOfU64 1) = 1 := by decide
  have hne : ¬ ((1 : Nat) = 2 ^ 64 - 1) := by decide
  have hneg : ((-1 : Int) < 0) := by omega
  have hpos : ¬ ((8 : Int) < 0) := by omega
  cases hl : k.lookup fd with
  | none =>
    left
    refine ⟨rfl, ?_⟩
    unfold attemptWrite
    simp only [hl, afterWrite, if_pos hneg]
    rfl
  | some file =>
    right
    cases file with
    | other f =>
      right; right; right
      refine ⟨f, rfl, ?_⟩
      unfold attemptWrite
      simp only [hl]
      cases f.onWrite with
      | done n =>
        simp only [afterWrite]
        split <;> rfl
      | fail e =>
        simp only [afterWrite]
        split <;> rfl
      | block => rfl
    | event e =>
      by_cases hc : e.counter + 1 ≤ maxCounter
      · left
        refine ⟨e, rfl, hc, ?_⟩
        unfold attemptWrite
        simp only [hl, if_neg hlen, hval, if_neg hne, if_pos hc, afterWrite, if_neg hpos]
      · right
        by_cases hb : e.nonblock = true
        · left
          refine ⟨e, rfl, by omega, hb, ?_⟩
          unfold attemptWrite
          simp only [hl, if_neg hlen, hval, if_neg hne, if_neg hc, if_pos hb, afterWrite,
            if_pos hneg]
          rfl
        · right; left
          refine ⟨e, rfl, by omega, by simpa using hb, ?_⟩
          unfold attemptWrite
          simp only [hl, if_neg hlen, hval, if_neg hne, if_neg hc, if_neg hb, afterWrite]

/-- An attempt to write never touches the pending exception. -/
theorem attemptWrite_thread_pending (k : Kernel) (t : Thread) (fd : Int) (buf : List Nat) :
    (attemptWrite k t fd buf).thread.pending = t.pending := by
  unfold attemptWrite
  dsimp only
  repeat' split
  all_goals rfl

theorem wake_thread_pending (k : Kernel) (t : Thread) (fd : Int) (buf : List Nat)
    (intr : Bool) : (wake k t fd buf intr).thread.pending = t.pending := by
  unfold wake
  split
  · rfl
  · split
    · rfl
    · exact attemptWrite_thread_pending k t fd buf

theorem attemptWrite_pending (k : Kernel) (t : Thread) (fd : Int) (buf : List Nat) :
    (∀ ok k1 t1, attemptWrite k t fd buf = Call.ret ok k1 t1 → t1.pending = t.pending) ∧
    (∀ k1 t1, attemptWrite k t fd buf = Call.block k1 t1 → t1.pending = t.pending) := by
  have h := attemptWrite_thread_pending k t fd buf
  constructor
  · intro ok k1 t1 hw
    rw [hw] at h
    exact h
  · intro k1 t1 hw
    rw [hw] at h
    exact h

/-- What `signalFD(fd)` does, case by case. -/
theorem signalFD_cases (k : Kernel) (t : Thread) (fd : Int) :
    (k.lookup fd = none ∧
      Java_edu_stanford_thingengine_engine_NativeSyncFlag_signalFD k t fd
        = Outcome.returned (logCall k (Syscall.write fd (bytesOfU64 1))) (thrown EBADF)) ∨
    (∃ e, k.lookup fd = some (File.event e) ∧ e.counter + 1 ≤ maxCounter ∧
      Java_edu_stanford_thingengine_engine_NativeSyncFlag_signalFD k t fd
        = Outcome.returned
            { logCall k (Syscall.write fd (bytesOfU64 1)) with
              fds := setFd k.fds fd.toNat
                       (some (File.event { e with counter := e.counter + 1 })) } t) ∨
    (∃ e, k.lookup fd = some (File.event e) ∧ maxCounter < e.counter + 1 ∧ e.nonblock = true ∧
      Java_edu_stanford_thingengine_engine_NativeSyncFlag_signalFD k t fd
        = Outcome.returned (logCall k (Syscall.write fd (bytesOfU64 1))) (thrown EAGAIN)) ∨
    (∃ e, k.lookup fd = some (File.event e) ∧ maxCounter < e.counter + 1 ∧ e.nonblock = false ∧
      Java_edu_stanford_thingengine_engine_NativeSyncFlag_signalFD k t fd
        = Outcome.blocked (logCall k (Syscall.write fd (bytesOfU64 1))) t) ∨
    (∃ f, k.lookup fd = some (File.other f) ∧
      (Java_edu_stanford_thingengine_engine_NativeSyncFlag_signalFD k t fd).kernel
        = logCall k (Syscall.write fd (bytesOfU64 1))) := by
  rw [signalFD_eq]
  rcases attempt_cases (logCall k (Syscall.write fd (bytesOfU64 1))) t fd with
    ⟨hl, hs⟩ | ⟨e, hl, hc, hs⟩ | ⟨e, hl, hc, hb, hs⟩ | ⟨e, hl, hc, hb, hs⟩ | ⟨f, hl, hs⟩
  · exact Or.inl ⟨hl, hs⟩
  · exact Or.inr (Or.inl ⟨e, hl, hc, hs⟩)
  · exact Or.inr (Or.inr (Or.inl ⟨e, hl, hc, hb, hs⟩))
  · exact Or.inr (Or.inr (Or.inr (Or.inl ⟨e, hl, hc, hb, hs⟩)))
  · exact Or.inr (Or.inr (Or.inr (Or.inr ⟨f, hl, hs⟩)))

/-- What `closeFD(fd)` does, case by case. -/
theorem closeFD_cases (k : Kernel) (t : Thread) (fd : Int) :
    (k.lookup fd = none ∧
      close k t fd = (-1, logCall k (Syscall.close fd), { t with errno := EBADF }) ∧
      Java_edu_stanford_thingengine_engine_NativeSyncFlag_closeFD k t fd
        = (logCall k (Syscall.close fd), thrown EBADF)) ∨
    (∃ f, k.lookup fd = some f ∧
      close k t fd
        = (0, { logCall k (Syscall.close fd) with fds := setFd k.fds fd.toNat none }, t) ∧
      Java_edu_stanford_thingengine_engine_NativeSyncFlag_closeFD k t fd
        = ({ logCall k (Syscall.close fd) with fds := setFd k.fds fd.toNat none }, t)) := by
  have hneg : ((-1 : Int) < 0) := by omega
  have hpos : ¬ ((0 : Int) < 0) := by omega
  cases hl : k.lookup fd with
  | none =>
    left
    have hc : close k t fd = (-1, logCall k (Syscall.close fd), { t with errno := EBADF }) := by
      unfold close
      simp only [hl]
      rfl
    refine ⟨rfl, hc, ?_⟩
    unfold Java_edu_stanford_thingengine_engine_NativeSyncFlag_closeFD
    simp only [hc, if_pos hneg]
    rfl
  | some f =>
    right
    have hc : close k t fd
        = (0, { logCall k (Syscall.close fd) with fds := setFd k.fds fd.toNat none }, t) := by
      unfold close
      simp only [hl]
      rfl
    refine ⟨f, rfl, hc, ?_⟩
    unfold Java_edu_stanford_thingengine_engine_NativeSyncFlag_closeFD
    simp only [hc, if_neg hpos]

theorem lookup_setFd_same (k k' : Kernel) (d : Int) (f : File) (v : Option File)
    (hopen : k.lookup d = some f) (hfds : k'.fds = setFd k.fds d.toNat v) :
    k'.lookup d = v := by
  have hd : ¬ d < 0 := by
    intro h
    simp [Kernel.lookup, h] at hopen
  simp [Kernel.lookup, hd, hfds, setFd]

theorem lookup_setFd_other (k k' : Kernel) (d d' : Int) (f : File) (v : Option File)
    (hopen : k.lookup d = some f) (hfds : k'.fds = setFd k.fds d.toNat v) (hne : d' ≠ d) :
    k'.lookup d' = k.lookup d' := by
  have hd : ¬ d < 0 := by
    intro h
    simp [Kernel.lookup, h] at hopen
  by_cases hd' : d' < 0
  · simp [Kernel.lookup, hd']
  · have hnat : d'.toNat ≠ d.toNat := by omega
    simp [Kernel.lookup, hd', hfds, setFd, hnat]

/-! ## Claims about `signalFD` -/

/-- A signal on an open flag whose counter has room returns with the counter
one higher and nothing else changed. -/
theorem signalFD_room (k : Kernel) (t : Thread) (d : Int) (e : EventFd)
    (hopen : k.lookup d = some (File.event e)) (hrep : e.counter + 1 ≤ maxCounter) :
    ∃ k', Java_edu_stanford_thingengine_engine_NativeSyncFlag_signalFD k t d
        = Outcome.returned k' t ∧
      k'.calls = k.calls ++ [Syscall.write d (bytesOfU64 1)] ∧
      k'.lookup d = some (File.event { e with counter := e.counter + 1 }) ∧
      ∀ d', d' ≠ d → k'.lookup d' = k.lookup d' := by
  rcases signalFD_cases k t d with ⟨hl, _⟩ | ⟨e', hl, _, hs⟩ | ⟨e', hl, hc, _, _⟩ |
      ⟨e', hl, hc, _, _⟩ | ⟨f, hl, _⟩
  · rw [hl] at hopen; cases hopen
  · rw [hl] at hopen
    cases hopen
    refine ⟨_, hs, rfl, ?_, ?_⟩
    · exact lookup_setFd_same k _ d _ _ hl rfl
    · intro d' hne
      exact lookup_setFd_other k _ d d' _ _ hl rfl hne
  · rw [hl] at hopen; cases hopen; omega
  · rw [hl] at hopen; cases hopen; omega
  · rw [hl] at hopen; cases hopen

/-- As long as the counter has room, a schedule of signals all return, leave
every thread as it was and add its length to the counter. -/
theorem runSignals_room (d : Int) :
    ∀ (sched : List Nat) (k : Kernel) (ts : Nat → Thread) (e : EventFd),
      k.lookup d = some (File.event e) → e.counter + sched.length ≤ maxCounter →
      ∃ k', runSignals d sched k ts = some (k', ts) ∧
        k'.lookup d = some (File.event { e with counter := e.counter + sched.length }) := by
  intro sched
  induction sched with
  | nil =>
    intro k ts e hopen _
    exact ⟨k, rfl, by simpa using hopen⟩
  | cons i rest ih =>
    intro k ts e hopen hroom
    have hlen : (i :: rest).length = rest.length + 1 := rfl
    obtain ⟨k1, hs, _, hd, _⟩ := signalFD_room k (ts i) d e hopen (by omega)
    have hts : (fun j => if j = i then ts i else ts j) = ts := by
      funext j
      by_cases hj : j = i
      · simp [hj]
      · simp [hj]
    obtain ⟨k', hr, hk'⟩ := ih k1 ts { e with counter := e.counter + 1 } hd
      (by simp only; omega)
    refine ⟨k', ?_, ?_⟩
    · unfold runSignals
      simp only [hs, hts]
      exact hr
    · rw [hk', hlen]
      simp only [EventFd.mk.injEq, Option.some.injEq, File.event.injEq, and_true]
      omega

/-- The state of `kMax` at descriptor 0 is what a flag opened by `init` holds
after `0xfffffffffffffffe` signals with no read in between. -/
theorem kMax_reachable :
    ∃ k', runSignals 0 (List.replicate maxCounter 0) kOpen (fun _ => t0) = some (k', fun _ => t0) ∧
      k'.lookup 0 = kMax.lookup 0 := by
  have hopen : kOpen.lookup 0 = some (File.event freshFlag) := by decide
  have hlen : (List.replicate maxCounter 0).length = maxCounter := List.length_replicate _ _
  have hroom : freshFlag.counter + (List.replicate maxCounter 0).length ≤ maxCounter := by
    rw [hlen]
    show 0 + maxCounter ≤ maxCounter
    omega
  obtain ⟨k', hr, hk'⟩ :=
    runSignals_room 0 (List.replicate maxCounter 0) kOpen (fun _ => t0) freshFlag hopen hroom
  refine ⟨k', hr, ?_⟩
  rw [hk', hlen]
  show some (File.event { freshFlag with counter := 0 + maxCounter }) = kMax.lookup 0
  rw [Nat.zero_add]
  rfl

/-- C4: when `d` refers to an open flag with counter `c` and `c + 1` is a value
the counter can hold (at most `0xfffffffffffffffe`), `signalFD(d)` returns,
the one call it issued is a write to `d` of the eight bytes that encode the
64-bit value 1, the counter of `d` is `c + 1` with the flags of the descriptor
as before, every other descriptor refers to what it did, and the thread state
is untouched (nothing thrown). -/
theorem signalFD_increments_counter (k : Kernel) (t : Thread) (d : Int) (e : EventFd)
    (hopen : k.lookup d = some (File.event e)) (hrep : e.counter + 1 ≤ maxCounter) :
    ∃ k', Java_edu_stanford_thingengine_engine_NativeSyncFlag_signalFD k t d
        = Outcome.returned k' t ∧
      k'.calls = k.calls ++ [Syscall.write d [1, 0, 0, 0, 0, 0, 0, 0]] ∧
      u64OfBytes [1, 0, 0, 0, 0, 0, 0, 0] = 1 ∧
      k'.lookup d = some (File.event { e with counter := e.counter + 1 }) ∧
      ∀ d', d' ≠ d → k'.lookup d' = k.lookup d' := by
  obtain ⟨k', hs, hcalls, hd, hother⟩ := signalFD_room k t d e hopen hrep
  refine ⟨k', hs, ?_, by decide, hd, hother⟩
  rw [hcalls, bytes_one]

theorem signalFD_increments_counter_witness :
    k41.lookup 0 = some (File.event { freshFlag with counter := 41 }) ∧
    ∃ k', Java_edu_stanford_thingengine_engine_NativeSyncFlag_signalFD k41 t0 0
        = Outcome.returned k' t0 ∧
      k'.calls = k41.calls ++ [Syscall.write 0 [1, 0, 0, 0, 0, 0, 0, 0]] ∧
      u64OfBytes [1, 0, 0, 0, 0, 0, 0, 0] = 1 ∧
      k'.lookup 0 = some (File.event { freshFlag with counter := 42 }) ∧
      ∀ d', d' ≠ 0 → k'.lookup d' = k41.lookup d' :=
  ⟨by decide,
   signalFD_increments_counter k41 t0 0 { freshFlag with counter := 41 } (by decide) (by decide)⟩

/-- C8: after every successful `init` the new descriptor polls not readable
(its counter is 0); one `signalFD` on it, from any thread, then returns
without throwing and the descriptor polls readable. -/
theorem init_not_ready_then_signal_ready (k : Kernel) (t : Thread) (self : NativeSyncFlag)
    (t' : Thread) (hok : 0 ≤ (eventfd k t 0 EFD_CLOEXEC).1) :
    readable (Java_edu_stanford_thingengine_engine_NativeSyncFlag_init k t self).1
        (Java_edu_stanford_thingengine_engine_NativeSyncFlag_init k t self).2.2.fd = false ∧
    ∃ k', Java_edu_stanford_thingengine_engine_NativeSyncFlag_signalFD
          (Java_edu_stanford_thingengine_engine_NativeSyncFlag_init k t self).1 t'
          (Java_edu_stanford_thingengine_engine_NativeSyncFlag_init k t self).2.2.fd
        = Outcome.returned k' t' ∧
      readable k' (Java_edu_stanford_thingengine_engine_NativeSyncFlag_init k t self).2.2.fd
        = true := by
  rcases init_cases k t self with ⟨n, _, _, hi⟩ | ⟨e, _, he, _⟩
  · rw [hi]
    have hl : ({ k with calls := k.calls ++ [Syscall.eventfd 0 EFD_CLOEXEC],
                        fds := setFd k.fds n (some (File.event freshFlag)) } : Kernel).lookup
          (n : Int)
        = some (File.event freshFlag) := by
      simp [lookup_ofNat, setFd]
    constructor
    · unfold readable
      rw [hl]
      rfl
    · obtain ⟨k', hs, _, hc, _⟩ := signalFD_room _ t' (n : Int) freshFlag hl (by decide)
      refine ⟨k', hs, ?_⟩
      unfold readable
      rw [hc]
      rfl
  · rw [he] at hok
    simp at hok

theorem init_not_ready_then_signal_ready_witness :
    0 ≤ (eventfd k0 t0 0 EFD_CLOEXEC).1 ∧
    readable (Java_edu_stanford_thingengine_engine_NativeSyncFlag_init k0 t0 flag0).1
        (Java_edu_stanford_thingengine_engine_NativeSyncFlag_init k0 t0 flag0).2.2.fd = false ∧
    ∃ k', Java_edu_stanford_thingengine_engine_NativeSyncFlag_signalFD
          (Java_edu_stanford_thingengine_engine_NativeSyncFlag_init k0 t0 flag0).1 t0
          (Java_edu_stanford_thingengine_engine_NativeSyncFlag_init k0 t0 flag0).2.2.fd
        = Outcome.returned k' t0 ∧
      readable k' (Java_edu_stanford_thingengine_engine_NativeSyncFlag_init k0 t0 flag0).2.2.fd
        = true :=
  ⟨by decide, init_not_ready_then_signal_ready k0 t0 flag0 t0 (by decide)⟩

/-- A consuming read of an open flag that is not a semaphore and whose counter
is not zero delivers the counter and leaves it at zero. -/
theorem read_resets (k : Kernel) (t : Thread) (d : Int) (e : EventFd)
    (hopen : k.lookup d = some (File.event e)) (hsem : e.semaphore = false)
    (hpos : 0 < e.counter) :
    ∃ k', read k t d 8 = ReadCall.ret 8 (bytesOfU64 e.counter) k' t ∧
      k'.lookup d = some (File.event { e with counter := 0 }) := by
  have h8 : ¬ (8 < 8) := by omega
  have hc : ¬ (e.counter = 0) := by omega
  refine ⟨{ logCall k (Syscall.read d 8) with
            fds := setFd k.fds d.toNat (some (File.event { e with counter := 0 })) }, ?_, ?_⟩
  · unfold read
    simp only [hopen, h8, hc, hsem, if_false, Bool.false_eq_true]
    rfl
  · exact lookup_setFd_same k _ d _ _ hopen rfl

/-- A caller blocked in the write of `signalFD`, woken with no signal while
the counter of the flag is still full, goes back to sleep. -/
theorem resume_full (k : Kernel) (t : Thread) (d : Int) (e : EventFd)
    (hopen : k.lookup d = some (File.event e)) (hfull : maxCounter < e.counter + 1)
    (hblk : e.nonblock = false) :
    signalFD_resume k t d false = Outcome.blocked k t := by
  rw [signalFD_resume_eq]
  have hw : wake k t d (bytesOfU64 1) false = attemptWrite k t d (bytesOfU64 1) := by
    unfold wake
    simp only [hopen, Bool.false_eq_true, if_false]
  rw [hw]
  rcases attempt_cases k t d with ⟨hl, _⟩ | ⟨e', hl, hc, _⟩ | ⟨e', hl, _, hb, _⟩ |
      ⟨e', hl, _, _, hs⟩ | ⟨f, hl, _⟩
  · rw [hl] at hopen; cases hopen
  · rw [hl] at hopen; cases hopen; omega
  · rw [hl] at hopen; cases hopen; rw [hblk] at hb; cases hb
  · exact hs
  · rw [hl] at hopen; cases hopen

/-- A caller blocked in the write of `signalFD`, woken with no signal once the
counter of the flag has room, completes the write and returns with nothing
thrown. -/
theorem resume_room (k : Kernel) (t : Thread) (d : Int) (e : EventFd)
    (hopen : k.lookup d = some (File.event e)) (hroom : e.counter + 1 ≤ maxCounter) :
    ∃ k', signalFD_resume k t d false = Outcome.returned k' t ∧
      k'.lookup d = some (File.event { e with counter := e.counter + 1 }) := by
  rw [signalFD_resume_eq]
  have hw : wake k t d (bytesOfU64 1) false = attemptWrite k t d (bytesOfU64 1) := by
    unfold wake
    simp only [hopen, Bool.false_eq_true, if_false]
  rw [hw]
  rcases attempt_cases k t d with ⟨hl, _⟩ | ⟨e', hl, _, hs⟩ | ⟨e', hl, hc, _, _⟩ |
      ⟨e', hl, hc, _, _⟩ | ⟨f, hl, _⟩
  · rw [hl] at hopen; cases hopen
  · rw [hl] at hopen
    cases hopen
    exact ⟨_, hs, lookup_setFd_same k _ d _ _ hl rfl⟩
  · rw [hl] at hopen; cases hopen; omega
  · rw [hl] at hopen; cases hopen; omega
  · rw [hl] at hopen; cases hopen

/-- A caller blocked in the write of `signalFD` and interrupted by a signal
returns with the exception for `EINTR` pending. -/
theorem resume_interrupted (k : Kernel) (t : Thread) (d : Int) :
    signalFD_resume k t d true = Outcome.returned k (thrown EINTR) := by
  rw [signalFD_resume_eq]
  rfl

/-- C10, as stated, fails: on a flag as `init` makes it whose counter is at
`0xfffffffffffffffe` (the state a flag opened by `init` reaches after that
many signals with no read), `signalFD` does not fail with an exception; the
thread is blocked inside `write` with nothing thrown. -/
theorem signalFD_at_max_counterexample :
    (∃ k', runSignals 0 (List.replicate maxCounter 0) kOpen (fun _ => t0)
        = some (k', fun _ => t0) ∧ k'.lookup 0 = kMax.lookup 0) ∧
    kMax.lookup 0 = some (File.event { freshFlag with counter := maxCounter }) ∧
    (Java_edu_stanford_thingengine_engine_NativeSyncFlag_signalFD kMax t0 0).isBlocked = true ∧
    (Java_edu_stanford_thingengine_engine_NativeSyncFlag_signalFD kMax t0 0).thread.pending
      = none :=
  ⟨kMax_reachable, by decide, by decide, by decide⟩

/-- C10, amended: on every open flag as `init` makes it (`EFD_NONBLOCK` not
set) whose counter cannot take one more increment, `signalFD` does not fail
on the overflow: it issues its one write and the caller is suspended in it,
with the thread state untouched (nothing thrown) and the counter unchanged.
Woken in any state in which the flag is still full, the caller goes back to
waiting.  Once a consumer has drained the counter with a read, the woken
write completes: `signalFD` returns with nothing thrown and the counter is 1.
If instead a signal interrupts the blocked write, `signalFD` returns with a
`java/io/IOException` pending whose message is that of `EINTR`. -/
theorem signalFD_overflow_blocks (k : Kernel) (t tr : Thread) (d : Int) (c : Nat)
    (hopen : k.lookup d = some (File.event { freshFlag with counter := c }))
    (hfull : maxCounter < c + 1) :
    ∃ k1, Java_edu_stanford_thingengine_engine_NativeSyncFlag_signalFD k t d
        = Outcome.blocked k1 t ∧
      k1.calls = k.calls ++ [Syscall.write d (bytesOfU64 1)] ∧
      k1.lookup d = some (File.event { freshFlag with counter := c }) ∧
      (∀ k2 c2, k2.lookup d = some (File.event { freshFlag with counter := c2 }) →
        maxCounter < c2 + 1 → signalFD_resume k2 t d false = Outcome.blocked k2 t) ∧
      (∃ k2, read k1 tr d 8 = ReadCall.ret 8 (bytesOfU64 c) k2 tr ∧
        ∃ k3, signalFD_resume k2 t d false = Outcome.returned k3 t ∧
          k3.lookup d = some (File.event { freshFlag with counter := 1 })) ∧
      (∀ k2, signalFD_resume k2 t d true
        = Outcome.returned k2
            { errno := EINTR,
              pending := some { cls := "java/io/IOException",
                                msg := "Interrupted system call" } }) := by
  have hmax : 0 < maxCounter := by decide
  rcases signalFD_cases k t d with ⟨hl, _⟩ | ⟨e', hl, hc, _⟩ | ⟨e', hl, _, hb, _⟩ |
      ⟨e', hl, _, _, hs⟩ | ⟨f, hl, _⟩
  · rw [hl] at hopen; cases hopen
  · rw [hl] at hopen; cases hopen; simp at hc; omega
  · rw [hl] at hopen; cases hopen; simp [freshFlag] at hb
  · refine ⟨_, hs, rfl, hopen, ?_, ?_, ?_⟩
    · intro k2 c2 h2 hfull2
      exact resume_full k2 t d _ h2 hfull2 rfl
    · obtain ⟨k2, hread, hk2⟩ :=
        read_resets (logCall k (Syscall.write d (bytesOfU64 1))) tr d
          { freshFlag with counter := c } hopen rfl (by simp only; omega)
      refine ⟨k2, hread, ?_⟩
      obtain ⟨k3, hres, hk3⟩ := resume_room k2 t d _ hk2 (by simp only; omega)
      exact ⟨k3, hres, hk3⟩
    · intro k2
      exact resume_interrupted k2 t d
  · rw [hl] at hopen; cases hopen

theorem signalFD_overflow_blocks_witness :
    kMax.lookup 0 = some (File.event { freshFlag with counter := maxCounter }) ∧
    ∃ k1, Java_edu_stanford_thingengine_engine_NativeSyncFlag_signalFD kMax t0 0
        = Outcome.blocked k1 t0 ∧
      k1.calls = kMax.calls ++ [Syscall.write 0 (bytesOfU64 1)] ∧
      k1.lookup 0 = some (File.event { freshFlag with counter := maxCounter }) ∧
      (∀ k2 c2, k2.lookup 0 = some (File.event { freshFlag with counter := c2 }) →
        maxCounter < c2 + 1 → signalFD_resume k2 t0 0 false = Outcome.blocked k2 t0) ∧
      (∃ k2, read k1 t0 0 8 = ReadCall.ret 8 (bytesOfU64 maxCounter) k2 t0 ∧
        ∃ k3, signalFD_resume k2 t0 0 false = Outcome.returned k3 t0 ∧
          k3.lookup 0 = some (File.event { freshFlag with counter := 1 })) ∧
      (∀ k2, signalFD_resume k2 t0 0 true
        = Outcome.returned k2
            { errno := EINTR,
              pending := some { cls := "java/io/IOException",
                                msg := "Interrupted system call" } }) :=
  ⟨by decide, signalFD_overflow_blocks kMax t0 t0 0 maxCounter (by decide) (by decide)⟩

/-! ## Claims about the error surface -/

/-- The `write` of `signalFD` never touches the pending exception. -/
theorem write_one_pending (k : Kernel) (t : Thread) (fd : Int) :
    (∀ ok k1 t1, write k t fd (bytesOfU64 1) = Call.ret ok k1 t1 → t1.pending = t.pending) ∧
    (∀ k1 t1, write k t fd (bytesOfU64 1) = Call.block k1 t1 → t1.pending = t.pending) :=
  attemptWrite_pending (logCall k (Syscall.write fd (bytesOfU64 1))) t fd (bytesOfU64 1)

theorem signalFD_calls (k : Kernel) (t : Thread) (fd : Int) :
    (Java_edu_stanford_thingengine_engine_NativeSyncFlag_signalFD k t fd).kernel.calls
      = k.calls ++ [Syscall.write fd (bytesOfU64 1)] := by
  rcases signalFD_cases k t fd with ⟨_, hs⟩ | ⟨e, _, _, hs⟩ | ⟨e, _, _, _, hs⟩ |
      ⟨e, _, _, _, hs⟩ | ⟨f, _, hs⟩ <;> rw [hs] <;> rfl

/-- C5: entered with no exception pending, each of `init`, `signalFD` and
`closeFD` leaves an exception pending exactly when its system call returned a
negative value; the exception is then a `java/io/IOException` whose message is
`strerror` of the `errno` that call set; and each issues exactly one system
call (`eventfd`, `write`, `close` respectively), also when it fails.  A
`signalFD` whose write blocks has thrown nothing, and when the blocked write
is woken and returns, the same holds of the value it returns then. -/
theorem exception_iff_call_fails (k : Kernel) (t : Thread) (self : NativeSyncFlag) (fd : Int)
    (hclean : t.pending = none) :
    (((Java_edu_stanford_thingengine_engine_NativeSyncFlag_init k t self).2.1.pending ≠ none
        ↔ (eventfd k t 0 EFD_CLOEXEC).1 < 0) ∧
     ((eventfd k t 0 EFD_CLOEXEC).1 < 0 →
        (Java_edu_stanford_thingengine_engine_NativeSyncFlag_init k t self).2.1.pending
          = some { cls := "java/io/IOException",
                   msg := strerror (eventfd k t 0 EFD_CLOEXEC).2.2.errno }) ∧
     (Java_edu_stanford_thingengine_engine_NativeSyncFlag_init k t self).1.calls
        = k.calls ++ [Syscall.eventfd 0 EFD_CLOEXEC]) ∧
    ((∀ ok k1 t1, write k t fd (bytesOfU64 1) = Call.ret ok k1 t1 →
        ∃ t', Java_edu_stanford_thingengine_engine_NativeSyncFlag_signalFD k t fd
            = Outcome.returned k1 t' ∧
          (t'.pending ≠ none ↔ ok < 0) ∧
          (ok < 0 →
            t'.pending = some { cls := "java/io/IOException", msg := strerror t1.errno })) ∧
     (∀ k1 t1, write k t fd (bytesOfU64 1) = Call.block k1 t1 →
        Java_edu_stanford_thingengine_engine_NativeSyncFlag_signalFD k t fd
            = Outcome.blocked k1 t1 ∧ t1.pending = none) ∧
     (Java_edu_stanford_thingengine_engine_NativeSyncFlag_signalFD k t fd).kernel.calls
        = k.calls ++ [Syscall.write fd (bytesOfU64 1)] ∧
     (∀ intr k2 ok k3 t3, wake k2 t fd (bytesOfU64 1) intr = Call.ret ok k3 t3 →
        ∃ t', signalFD_resume k2 t fd intr = Outcome.returned k3 t' ∧
          (t'.pending ≠ none ↔ ok < 0) ∧
          (ok < 0 →
            t'.pending = some { cls := "java/io/IOException", msg := strerror t3.errno }))) ∧
    (((Java_edu_stanford_thingengine_engine_NativeSyncFlag_closeFD k t fd).2.pending ≠ none
        ↔ (close k t fd).1 < 0) ∧
     ((close k t fd).1 < 0 →
        (Java_edu_stanford_thingengine_engine_NativeSyncFlag_closeFD k t fd).2.pending
          = some { cls := "java/io/IOException", msg := strerror (close k t fd).2.2.errno }) ∧
     (Java_edu_stanford_thingengine_engine_NativeSyncFlag_closeFD k t fd).1.calls
        = k.calls ++ [Syscall.close fd]) := by
  refine ⟨?_, ⟨?_, ?_, ?_, ?_⟩, ?_⟩
  · rcases init_cases k t self with ⟨n, _, he, hi⟩ | ⟨e, _, he, hi⟩
    · rw [hi, he]
      refine ⟨?_, ?_, rfl⟩
      · simp only [hclean]
        constructor
        · intro h; exact absurd rfl h
        · intro h; omega
      · intro h
        simp only at h
        omega
    · rw [hi, he]
      refine ⟨?_, fun _ => rfl, rfl⟩
      simp
  · intro ok k1 t1 hw
    have hp : t1.pending = none := by
      rw [(write_one_pending k t fd).1 ok k1 t1 hw, hclean]
    unfold Java_edu_stanford_thingengine_engine_NativeSyncFlag_signalFD
    simp only [hw]
    by_cases hneg : ok < 0
    · simp only [if_pos hneg]
      exact ⟨_, rfl, by simp [ThrowNew, hneg], fun _ => rfl⟩
    · simp only [if_neg hneg]
      exact ⟨_, rfl, by simp [hp, hneg], fun h => absurd h hneg⟩
  · intro k1 t1 hw
    have hp : t1.pending = none := by
      rw [(write_one_pending k t fd).2 k1 t1 hw, hclean]
    unfold Java_edu_stanford_thingengine_engine_NativeSyncFlag_signalFD
    simp only [hw]
    exact ⟨trivial, hp⟩
  · exact signalFD_calls k t fd
  · intro intr k2 ok k3 t3 hw
    have hp : t3.pending = none := by
      have h := wake_thread_pending k2 t fd (bytesOfU64 1) intr
      rw [hw] at h
      rw [← hclean]
      exact h
    unfold signalFD_resume
    simp only [hw]
    by_cases hneg : ok < 0
    · simp only [if_pos hneg]
      exact ⟨_, rfl, by simp [ThrowNew, hneg], fun _ => rfl⟩
    · simp only [if_neg hneg]
      exact ⟨_, rfl, by simp [hp, hneg], fun h => absurd h hneg⟩
  · rcases closeFD_cases k t fd with ⟨_, hc, hj⟩ | ⟨e, _, hc, hj⟩
    · rw [hj, hc]
      refine ⟨?_, fun _ => rfl, rfl⟩
      simp [thrown]
    · rw [hj, hc]
      refine ⟨?_, ?_, rfl⟩
      · simp [hclean]
      · intro h
        simp only at h
        omega

theorem exception_iff_call_fails_witness :
    t0.pending = none ∧
    (Java_edu_stanford_thingengine_engine_NativeSyncFlag_closeFD k0 t0 3).2.pending
      = some { cls := "java/io/IOException", msg := "Bad file descriptor" } ∧
    (Java_edu_stanford_thingengine_engine_NativeSyncFlag_closeFD k0 t0 3).1.calls
      = k0.calls ++ [Syscall.close 3] :=
  ⟨rfl, by decide, (exception_iff_call_fails k0 t0 flag0 3 rfl).2.2.2.2⟩

/-! ## Sequences of steps -/

/-- C9, as stated, fails: a second `init` on a flag that the first `init`
opened at descriptor 0 is not rejected; it throws nothing, allocates
descriptor 1 and overwrites the stored descriptor with it, and descriptor 0
stays open. -/
theorem second_init_not_rejected_counterexample :
    (Java_edu_stanford_thingengine_engine_NativeSyncFlag_init k0 t0 flag0).2.2.fd = 0 ∧
    (Java_edu_stanford_thingengine_engine_NativeSyncFlag_init k0 t0 flag0).2.1.pending = none ∧
    (Java_edu_stanford_thingengine_engine_NativeSyncFlag_init
      (Java_edu_stanford_thingengine_engine_NativeSyncFlag_init k0 t0 flag0).1
      (Java_edu_stanford_thingengine_engine_NativeSyncFlag_init k0 t0 flag0).2.1
      (Java_edu_stanford_thingengine_engine_NativeSyncFlag_init k0 t0 flag0).2.2).2.1.pending
      = none ∧
    (Java_edu_stanford_thingengine_engine_NativeSyncFlag_init
      (Java_edu_stanford_thingengine_engine_NativeSyncFlag_init k0 t0 flag0).1
      (Java_edu_stanford_thingengine_engine_NativeSyncFlag_init k0 t0 flag0).2.1
      (Java_edu_stanford_thingengine_engine_NativeSyncFlag_init k0 t0 flag0).2.2).2.2.fd = 1 ∧
    ((Java_edu_stanford_thingengine_engine_NativeSyncFlag_init
      (Java_edu_stanford_thingengine_engine_NativeSyncFlag_init k0 t0 flag0).1
      (Java_edu_stanford_thingengine_engine_NativeSyncFlag_init k0 t0 flag0).2.1
      (Java_edu_stanford_thingengine_engine_NativeSyncFlag_init k0 t0 flag0).2.2).1.lookup
        1).isSome = true ∧
    ((Java_edu_stanford_thingengine_engine_NativeSyncFlag_init
      (Java_edu_stanford_thingengine_engine_NativeSyncFlag_init k0 t0 flag0).1
      (Java_edu_stanford_thingengine_engine_NativeSyncFlag_init k0 t0 flag0).2.1
      (Java_edu_stanford_thingengine_engine_NativeSyncFlag_init k0 t0 flag0).2.2).1.lookup
        0).isSome = true := by
  decide

/-- C9, amended: `init` does not look at the state of the flag.  Called on a
flag whose stored descriptor `self.fd` is open, it behaves as on any other
object: when the allocation succeeds it throws nothing, the descriptor it
stores is a newly opened one different from the old one, and the old
descriptor stays open with its counter as it was. -/
theorem second_init_allocates_again (k : Kernel) (t : Thread) (self : NativeSyncFlag)
    (e : EventFd) (hopen : k.lookup self.fd = some (File.event e))
    (hok : 0 ≤ (eventfd k t 0 EFD_CLOEXEC).1) :
    (Java_edu_stanford_thingengine_engine_NativeSyncFlag_init k t self).2.1.pending = t.pending ∧
    (Java_edu_stanford_thingengine_engine_NativeSyncFlag_init k t self).2.2.fd ≠ self.fd ∧
    k.lookup (Java_edu_stanford_thingengine_engine_NativeSyncFlag_init k t self).2.2.fd = none ∧
    (Java_edu_stanford_thingengine_engine_NativeSyncFlag_init k t self).1.lookup
        (Java_edu_stanford_thingengine_engine_NativeSyncFlag_init k t self).2.2.fd
      = some (File.event freshFlag) ∧
    (Java_edu_stanford_thingengine_engine_NativeSyncFlag_init k t self).1.lookup self.fd
      = some (File.event e) := by
  rcases init_cases k t self with ⟨n, hfree, _, hi⟩ | ⟨e', _, he, _⟩
  · rw [hi]
    have hn : k.fds n = none := (lowestFree_spec k.fds k.nofile 0 n hfree).1
    have hneq : (n : Int) ≠ self.fd := by
      intro h
      rw [← h, lookup_ofNat, hn] at hopen
      cases hopen
    have hself : ¬ self.fd < 0 := by
      intro h
      simp [Kernel.lookup, h] at hopen
    have hnat : self.fd.toNat ≠ n := by omega
    refine ⟨rfl, hneq, ?_, ?_, ?_⟩
    · show k.lookup (n : Int) = none
      rw [lookup_ofNat, hn]
    · simp [lookup_ofNat, setFd]
    · rw [← hopen]
      simp [Kernel.lookup, hself, setFd, hnat]
  · rw [he] at hok
    simp at hok

theorem second_init_allocates_again_witness :
    kOpen.lookup flag0.fd = some (File.event freshFlag) ∧
    0 ≤ (eventfd kOpen t0 0 EFD_CLOEXEC).1 ∧
    (Java_edu_stanford_thingengine_engine_NativeSyncFlag_init kOpen t0 flag0).2.2.fd
      ≠ flag0.fd ∧
    (Java_edu_stanford_thingengine_engine_NativeSyncFlag_init kOpen t0 flag0).1.lookup flag0.fd
      = some (File.event freshFlag) :=
  ⟨by decide, by decide,
   (second_init_allocates_again kOpen t0 flag0 freshFlag (by decide) (by decide)).2.1,
   (second_init_allocates_again kOpen t0 flag0 freshFlag (by decide) (by decide)).2.2.2.2⟩

/-! ## Claims about coalescing -/

/-- C7: take an open flag `d` (not a semaphore, as `init` makes it) and any
schedule of `N >= 1` calls `signalFD(d)` by any threads in any order, each an
atomic increment the counter has room for.  All calls return with nothing
thrown, afterwards the descriptor polls readable, and one consuming read
delivers the sum and leaves the descriptor not readable: the waiter sees one
ready transition whatever `N` and whatever the order of callers. -/
theorem signals_coalesce (sched : List Nat) (k : Kernel) (ts : Nat → Thread) (t : Thread)
    (d : Int) (e : EventFd) (hN : 1 ≤ sched.length)
    (hopen : k.lookup d = some (File.event e))
    (hsem : e.semaphore = false) (hroom : e.counter + sched.length ≤ maxCounter) :
    ∃ k', runSignals d sched k ts = some (k', ts) ∧
      readable k' d = true ∧
      ∃ k2, read k' t d 8 = ReadCall.ret 8 (bytesOfU64 (e.counter + sched.length)) k2 t ∧
        readable k2 d = false := by
  obtain ⟨k', hr, hk'⟩ := runSignals_room d sched k ts e hopen hroom
  refine ⟨k', hr, ?_, ?_⟩
  · unfold readable
    rw [hk']
    simp only [decide_eq_true_eq]
    omega
  · obtain ⟨k2, hread, hk2⟩ := read_resets k' t d _ hk' hsem (by simp only; omega)
    refine ⟨k2, hread, ?_⟩
    unfold readable
    rw [hk2]
    rfl

theorem signals_coalesce_witness :
    kOpen.lookup 0 = some (File.event freshFlag) ∧
    ∃ k', runSignals 0 [2, 0, 1, 0, 2] kOpen (fun _ => t0) = some (k', fun _ => t0) ∧
      readable k' 0 = true ∧
      ∃ k2, read k' t0 0 8 = ReadCall.ret 8 (bytesOfU64 (0 + 5)) k2 t0 ∧
        readable k2 0 = false :=
  ⟨by decide,
   signals_coalesce [2, 0, 1, 0, 2] kOpen (fun _ => t0) t0 0 freshFlag (by decide) (by decide)
     rfl (by decide)⟩

end ThingEngine
